import Mathlib

/-!
Shallow embedding of the groupsim pipeline (src/data/chatdb.py and
src/data/dataset.py) and proofs about it.

Modelling conventions:
* `Message.timestamp` is an absolute point in time, measured in whole
  seconds from Python's `datetime.min`; `datetime.min` itself is `0` and
  `timedelta(hours=h)` is `h * 3600` seconds.  Python's
  `msg.timestamp - start_timestamp > timedelta(hours=b)` becomes the
  integer comparison `(msg.timestamp : Int) - start > b * 3600`.
* Python `str` values are Lean `String`s; the `str` operations used by the
  code are modelled over the character list `s.data`: `pyStrip` models
  `str.strip()`, `pyLen` models `len`, `strStarts` models
  `str.startswith`, `pyLower` models `str.lower()` (ASCII, which is all
  SQLite's `LIKE` is case-insensitive for), and `joinWith` models
  `sep.join(...)`.
* Code whose uncaught exceptions matter (`FileNotFoundError`,
  `IndexError` from `speaker[0]`) is modelled with `Except`.
* The sqlite query of chatdb.py is modelled relationally: a `Row` is one
  candidate row of the joined tables, `sqlKeep` is the query's `WHERE`
  clause and `rowSpeaker` its speaker `CASE` expression; the store itself
  is represented by the flag `pathExists` plus the list of candidate rows.
-/

set_option maxRecDepth 10000

namespace GroupSim

/-- Model of Python `len` on `str` (number of code points). -/
def pyLen (s : String) : Nat := s.data.length

/-- Model of Python `str.strip()`: drop whitespace from both ends. -/
def pyStrip (s : String) : String :=
  String.mk (((s.data.dropWhile Char.isWhitespace).reverse.dropWhile Char.isWhitespace).reverse)

/-- Model of Python `str.lower()` (ASCII case mapping). -/
def pyLower (s : String) : String := String.mk (s.data.map Char.toLower)

/-- Model of Python `s.startswith(p)`: `p.data` is an initial run of `s.data`. -/
def strStarts (s p : String) : Bool := decide (s.data.take p.data.length = p.data)

/-- Model of Python `sep.join(parts)`. -/
def joinWith (sep : String) : List String → String
  | [] => ""
  | [s] => s
  | s :: rest => s ++ sep ++ joinWith sep rest

/-- Model of Python f-string interpolation of an `Optional[str]`:
`None` prints as the literal string `"None"`. -/
def pyStrOpt : Option String → String
  | some s => s
  | none => "None"

/-- chatdb.py, `Message` dataclass: speaker (None when unresolved),
stripped text, absolute timestamp. -/
structure Message where
  speaker : Option String
  text : String
  timestamp : Nat
  deriving DecidableEq

/-- The input chats of dataset.py are time-ordered (non-decreasing
timestamps); chatdb.py guarantees this by sorting. -/
def timeOrdered (chat : List Message) : Prop :=
  List.Pairwise (fun a b => a.timestamp ≤ b.timestamp) chat

instance (chat : List Message) : Decidable (timeOrdered chat) :=
  inferInstanceAs
    (Decidable (List.Pairwise (fun a b : Message => a.timestamp ≤ b.timestamp) chat))

/-- The loop of dataset.py `construct_conversations`, with the loop state
made explicit: the accumulated `conversations`, the running `conversation`
and `start_timestamp` (initially `datetime.min`, i.e. `0`).  Returns the
final loop state. -/
def segRun (bd : Nat) :
    List Message → List (List Message) → List Message → Nat →
      List (List Message) × List Message × Nat
  | [], conversations, conversation, start => (conversations, conversation, start)
  | msg :: rest, conversations, conversation, start =>
    if (msg.timestamp : Int) - (start : Int) > (bd : Int) * 3600 then
      segRun bd rest
        (if conversation = [] then conversations else conversations ++ [conversation])
        [msg] msg.timestamp
    else
      segRun bd rest conversations (conversation ++ [msg]) start

/-- dataset.py `construct_conversations(chat, boundary_duration=2)`:
the list of conversations the loop has appended when the input ends.
The final running conversation is never appended by the source. -/
def construct_conversations (chat : List Message) (boundary_duration : Nat := 2) :
    List (List Message) :=
  (segRun boundary_duration chat [] [] 0).1

/-- The running conversation still open when the loop of
`construct_conversations` ends (the part of the input the source drops). -/
def openSegment (chat : List Message) (boundary_duration : Nat := 2) : List Message :=
  (segRun boundary_duration chat [] [] 0).2.1

example :
    segRun 2 [⟨some "A", "x", 10000000⟩] [] [] 0
      = ([], [⟨some "A", "x", 10000000⟩], 10000000) := by decide

/-- Flattening the accumulated conversations and appending the running one
recovers everything consumed so far; the loop drops and duplicates nothing
while it runs. -/
theorem segRun_flatten (bd : Nat) :
    ∀ (rest : List Message) (convs : List (List Message)) (conv : List Message) (start : Nat),
      ((segRun bd rest convs conv start).1).flatten ++ (segRun bd rest convs conv start).2.1
        = convs.flatten ++ conv ++ rest := by
  intro rest
  induction rest with
  | nil => intro convs conv start; simp [segRun]
  | cons msg rest ih =>
    intro convs conv start
    by_cases h : (msg.timestamp : Int) - (start : Int) > (bd : Int) * 3600
    · rw [segRun, if_pos h, ih]
      by_cases hc : conv = []
      · subst hc; simp
      · rw [if_neg hc]; simp
    · rw [segRun, if_neg h, ih]
      simp

/-- All pairs of messages of a segment are within the boundary duration of
one another. -/
def withinBound (bd : Nat) (seg : List Message) : Prop :=
  ∀ a ∈ seg, ∀ b ∈ seg, (b.timestamp : Int) - (a.timestamp : Int) ≤ (bd : Int) * 3600

instance (bd : Nat) (seg : List Message) : Decidable (withinBound bd seg) :=
  inferInstanceAs (Decidable (∀ a ∈ seg, ∀ b ∈ seg,
    (b.timestamp : Int) - (a.timestamp : Int) ≤ (bd : Int) * 3600))

/-- A relation that holds between every two members of a list holds along
its consecutive pairs. -/
theorem chain_of_forall_mem {α : Type} {R : α → α → Prop} (l : List α)
    (h : ∀ a ∈ l, ∀ b ∈ l, R a b) : List.Chain' R l := by
  induction l with
  | nil => exact List.chain'_nil
  | cons a l ih =>
    rw [List.chain'_cons']
    refine ⟨?_, ih ?_⟩
    · intro y hy
      exact h a (by simp) y (List.mem_cons_of_mem a (List.mem_of_mem_head? hy))
    · intro x hx y hy
      exact h x (List.mem_cons_of_mem a hx) y (List.mem_cons_of_mem a hy)

/-- Invariant of the `construct_conversations` loop: when the input
consumed so far plus the input still to come is time-ordered, every
appended conversation stays within the boundary duration.  The loop state
satisfies: an empty running conversation only occurs with the initial
sentinel start (0), and every member of the running conversation has its
timestamp in `[start, start + bd * 3600]`. -/
theorem segRun_withinBound (bd : Nat) :
    ∀ (rest : List Message) (convs : List (List Message)) (conv : List Message) (start : Nat),
      List.Pairwise (fun a b : Message => a.timestamp ≤ b.timestamp) (conv ++ rest) →
      (conv = [] → start = 0) →
      (∀ m ∈ conv, start ≤ m.timestamp ∧ m.timestamp ≤ start + bd * 3600) →
      (∀ seg ∈ convs, withinBound bd seg) →
      ∀ seg ∈ (segRun bd rest convs conv start).1, withinBound bd seg := by
  intro rest
  induction rest with
  | nil =>
    intro convs conv start _ _ _ hconvs
    simpa [segRun] using hconvs
  | cons msg rest ih =>
    intro convs conv start hpair hempty hbound hconvs
    by_cases h : (msg.timestamp : Int) - (start : Int) > (bd : Int) * 3600
    · rw [segRun, if_pos h]
      refine ih _ _ _ ?_ ?_ ?_ ?_
      · exact hpair.sublist (List.sublist_append_right conv (msg :: rest))
      · intro hc; cases hc
      · intro m hm
        rw [List.mem_singleton] at hm
        subst hm
        omega
      · by_cases hc : conv = []
        · subst hc; simpa using hconvs
        · rw [if_neg hc]
          intro seg hseg
          rcases List.mem_append.mp hseg with hseg | hseg
          · exact hconvs seg hseg
          · rw [List.mem_singleton] at hseg
            subst hseg
            intro a ha b hb
            have hA := hbound a ha
            have hB := hbound b hb
            omega
    · rw [segRun, if_neg h]
      refine ih _ _ _ ?_ ?_ ?_ hconvs
      · simpa [List.append_assoc] using hpair
      · intro hc; simp at hc
      · intro m hm
        rcases List.mem_append.mp hm with hm | hm
        · exact hbound m hm
        · rw [List.mem_singleton] at hm
          rw [hm]
          have hstart : start ≤ msg.timestamp := by
            by_cases hc : conv = []
            · have h0 := hempty hc
              omega
            · rcases List.exists_mem_of_ne_nil conv hc with ⟨x, hx⟩
              have h1 := (hbound x hx).1
              have h2 : x.timestamp ≤ msg.timestamp :=
                (List.pairwise_append.mp hpair).2.2 x hx msg (by simp)
              omega
          omega

/-- A single message two hours and more after `datetime.min`: input for the
C1 counterexample. -/
def c1msg : Message := ⟨some "A", "the only message of the chat", 1000000000⟩

/-- C1 counterexample: for the time-ordered one-message chat `[c1msg]`,
concatenating the segments returned by `construct_conversations` yields
`[]`, not the input list: the trailing open segment is never flushed, so
the message is lost. -/
theorem construct_conversations_drops_message :
    timeOrdered [c1msg]
      ∧ (construct_conversations [c1msg] 2).flatten ≠ [c1msg] := by
  constructor
  · decide
  · decide

/-- C1 (amended): for every time-ordered message list and every boundary
duration, concatenating in order the segments returned by
`construct_conversations` reproduces the original input list with its
trailing open segment removed — no message is duplicated and relative
order is preserved, but the messages of the final, never-flushed segment
are lost; appending that open segment recovers the input exactly. -/
theorem construct_conversations_flatten (chat : List Message) (bd : Nat)
    (h : timeOrdered chat) :
    (construct_conversations chat bd).flatten ++ openSegment chat bd = chat := by
  have hrun := segRun_flatten bd chat [] [] 0
  simpa [construct_conversations, openSegment] using hrun

/-- Witness for the amended C1 theorem at a concrete two-message chat. -/
def c1wchat : List Message :=
  [⟨some "A", "hello everyone out there", 2000000000⟩,
   ⟨some "B", "a reply ten minutes later", 2000000600⟩]

theorem construct_conversations_flatten_witness :
    timeOrdered c1wchat
      ∧ (construct_conversations c1wchat 2).flatten ++ openSegment c1wchat 2 = c1wchat :=
  ⟨by decide, construct_conversations_flatten c1wchat 2 (by decide)⟩

/-- Messages at `t0`, `t0 + 1h`, `t0 + 3h` (seconds), the input of C4. -/
def c4m0 : Message := ⟨some "A", "first message", 1000000000⟩

def c4m1 : Message := ⟨some "B", "one hour after the first", 1000003600⟩

def c4m2 : Message := ⟨some "A", "three hours after the first", 1000010800⟩

def c4chat : List Message := [c4m0, c4m1, c4m2]

/-- C4 counterexample: for the three messages at `t0`, `t0+1h`, `t0+3h`
and boundary duration 2 hours, `construct_conversations` does not return
the two segments `[t0, t0+1h]` and `[t0+3h]` the claim promises. -/
theorem construct_conversations_c4_not_two_segments :
    timeOrdered c4chat
      ∧ construct_conversations c4chat 2 ≠ [[c4m0, c4m1], [c4m2]] := by
  constructor
  · decide
  · decide

/-- C4 (amended): for the three messages at `t0`, `t0+1h`, `t0+3h` and
boundary duration 2 hours, `construct_conversations` returns exactly one
segment, `[t0, t0+1h]`; the message at `t0+3h` starts a new running
segment that is still open at end of input and is never flushed. -/
theorem construct_conversations_c4_one_segment :
    construct_conversations c4chat 2 = [[c4m0, c4m1]]
      ∧ openSegment c4chat 2 = [c4m2] := by
  constructor
  · decide
  · decide

/-- C5: for every time-ordered input and every boundary duration, within
every returned segment consecutive messages are at most the boundary
duration apart, and every message of a segment is within the boundary
duration of the segment's first message (the gap test is anchored at the
segment's first message's timestamp).  Moreover the returned segments,
followed by the trailing open segment, are exactly the input in order, so
the segments are contiguous runs of the input: a message whose gap to its
input predecessor exceeds the boundary duration can therefore never sit at
a non-head position of a returned segment — it always begins a new one. -/
theorem construct_conversations_segment_invariants (chat : List Message) (bd : Nat)
    (h : timeOrdered chat) :
    (∀ seg ∈ construct_conversations chat bd,
        List.Chain' (fun a b : Message =>
          (b.timestamp : Int) - (a.timestamp : Int) ≤ (bd : Int) * 3600) seg)
      ∧ (∀ seg ∈ construct_conversations chat bd, ∀ f, seg.head? = some f →
          ∀ m ∈ seg, (m.timestamp : Int) - (f.timestamp : Int) ≤ (bd : Int) * 3600)
      ∧ (construct_conversations chat bd).flatten ++ openSegment chat bd = chat := by
  have hgood : ∀ seg ∈ construct_conversations chat bd, withinBound bd seg := by
    have hrun := segRun_withinBound bd chat [] [] 0
    refine fun seg hseg => hrun ?_ ?_ ?_ ?_ seg hseg
    · simpa [timeOrdered] using h
    · intro; rfl
    · intro m hm; cases hm
    · intro s hs; cases hs
  refine ⟨?_, ?_, construct_conversations_flatten chat bd h⟩
  · intro seg hseg
    exact chain_of_forall_mem seg (hgood seg hseg)
  · intro seg hseg f hf m hm
    exact hgood seg hseg f (List.mem_of_mem_head? (by simp [hf])) m hm

/-- Witness input for C5: three messages with a 3-hour gap before the
last. -/
def c5wchat : List Message :=
  [⟨some "A", "good morning group", 3000000000⟩,
   ⟨some "B", "morning, one hour on", 3000003600⟩,
   ⟨some "A", "back after three hours", 3000010800⟩]

theorem construct_conversations_segment_invariants_witness :
    timeOrdered c5wchat
      ∧ ((∀ seg ∈ construct_conversations c5wchat 2,
            List.Chain' (fun a b : Message =>
              (b.timestamp : Int) - (a.timestamp : Int) ≤ (2 : Int) * 3600) seg)
          ∧ (∀ seg ∈ construct_conversations c5wchat 2, ∀ f, seg.head? = some f →
              ∀ m ∈ seg, (m.timestamp : Int) - (f.timestamp : Int) ≤ (2 : Int) * 3600)
          ∧ (construct_conversations c5wchat 2).flatten ++ openSegment c5wchat 2 = c5wchat) :=
  ⟨by decide, construct_conversations_segment_invariants c5wchat 2 (by decide)⟩

/-- chatdb.py query model: one candidate row of the join in `READ_QUERY`
(before its `WHERE` clause).  `name` is the manually added contact name of
the matched handle, `handle_id` its raw identifier (`None` when the
`LEFT JOIN` finds no handle), `text` the message text (`None` allowed),
`timestamp` the already-parsed absolute time. -/
structure Row where
  chat_name : String
  name : Option String
  is_from_me : Bool
  handle_id : Option String
  text : Option String
  timestamp : Nat
  deriving DecidableEq

/-- The tapback/reaction literals of the query's `NOT LIKE` filters. -/
def tapbackStarts : List String :=
  ["Loved", "Liked", "Disliked", "Laughed at", "Emphasized", "Questioned", "Removed"]

/-- SQLite `text LIKE 'pat%'` (case-insensitive for ASCII). -/
def likeStart (t pat : String) : Bool := strStarts (pyLower t) (pyLower pat)

/-- The `WHERE` clause of `filtered_messages` in `READ_QUERY`:
non-empty chat name, non-NULL text, text not a tapback message. -/
def sqlKeep (r : Row) : Bool :=
  match r.text with
  | none => false
  | some t => decide (r.chat_name ≠ "") && tapbackStarts.all (fun p => !(likeStart t p))

/-- The speaker `CASE` expression of `filtered_messages`: the handle's
contact name when known, else the fixed self label for own messages, else
the raw handle id (giving SQL NULL when the handle is NULL). -/
def rowSpeaker (r : Row) : Option String :=
  match r.name with
  | some n => some n
  | none => if r.is_from_me then some "jeremy" else r.handle_id

/-- One row of the query's result set as fetched by the Python loop:
`(chat_name, speaker, text, timestamp)`. -/
structure ResultRow where
  chat_name : String
  speaker : Option String
  text : String
  timestamp : Nat
  deriving DecidableEq

/-- Projection of a kept candidate row to a result-set row (`sqlKeep`
guarantees `text` is present). -/
def rowToResult (r : Row) : ResultRow :=
  ⟨r.chat_name, rowSpeaker r, r.text.getD "", r.timestamp⟩

/-- The uncaught exceptions of `extract_group_chats`:
`FileNotFoundError(CHATDB_PATH)` and the `IndexError` of `speaker[0]`. -/
inductive ExtractErr where
  | sourceNotFound (path : String)
  | indexError
  deriving DecidableEq

/-- chatdb.py line 114-115: `speaker[0].upper() + speaker[1:].lower()`,
applied only when the speaker is not None; indexing an empty string
raises `IndexError`. -/
def normalizeSpeaker : Option String → Except ExtractErr (Option String)
  | none => Except.ok none
  | some s =>
    match s.data with
    | [] => Except.error ExtractErr.indexError
    | c :: cs => Except.ok (some (String.mk (c.toUpper :: cs.map Char.toLower)))

/-- `defaultdict(list)` append: `chats[chat_name].append(msg)`, keeping
first-insertion key order. -/
def dictAppend (d : List (String × List Message)) (k : String) (m : Message) :
    List (String × List Message) :=
  match d with
  | [] => [(k, [m])]
  | (k0, ms) :: rest =>
    if k0 = k then (k0, ms ++ [m]) :: rest else (k0, ms) :: dictAppend rest k m

/-- The body of the `for row in result_set` loop of `extract_group_chats`:
strip the text, normalize the speaker (may raise), skip texts containing
the Unicode object replacement character (code point 65532), otherwise
append the message under its chat name. -/
def stepRow (d : List (String × List Message)) (row : ResultRow) :
    Except ExtractErr (List (String × List Message)) :=
  match normalizeSpeaker row.speaker with
  | Except.error e => Except.error e
  | Except.ok sp =>
    if (pyStrip row.text).data.any (fun c => c.toNat == 65532) then Except.ok d
    else Except.ok (dictAppend d row.chat_name ⟨sp, pyStrip row.text, row.timestamp⟩)

/-- The whole `for row in result_set` loop. -/
def processRows :
    List ResultRow → List (String × List Message) →
      Except ExtractErr (List (String × List Message))
  | [], d => Except.ok d
  | row :: rest, d =>
    match stepRow d row with
    | Except.error e => Except.error e
    | Except.ok d2 => processRows rest d2

/-- Stable insertion of a message into an already sorted run: the new
message goes after every message with timestamp at most its own.  Folding
this over a list models Python's stable `sorted(chat, key=timestamp)`. -/
def insertByTime (m : Message) : List Message → List Message
  | [] => [m]
  | x :: xs =>
    if x.timestamp ≤ m.timestamp then x :: insertByTime m xs else m :: x :: xs

/-- Model of `sorted(chat, key=lambda m: m.timestamp)` (a stable sort). -/
def sortByTime (ms : List Message) : List Message :=
  ms.foldl (fun acc m => insertByTime m acc) []

/-- The final loop of `extract_group_chats`: sort every chat's messages by
timestamp. -/
def sortChats (d : List (String × List Message)) : List (String × List Message) :=
  d.map (fun kv => (kv.1, sortByTime kv.2))

/-- chatdb.py `CHATDB_PATH`: `os.path.join(Path.home(), "Library/Messages/chat.db")`. -/
def chatdb_path (home : String) : String := home ++ "/Library/Messages/chat.db"

/-- chatdb.py `extract_group_chats(chat_name)`.  The raw store is
modelled by `pathExists` (does `CHATDB_PATH` exist) and `rows`, the
candidate rows of the join for the given name pattern; the function
checks the path first, then runs the query (`sqlKeep`/`rowToResult`),
then the Python accumulation loop, then sorts each chat. -/
def extract_group_chats (chat_name : String) (home : String) (pathExists : Bool)
    (rows : List Row) : Except ExtractErr (List (String × List Message)) :=
  if !pathExists then
    Except.error (ExtractErr.sourceNotFound (chatdb_path home))
  else
    match processRows ((rows.filter sqlKeep).map rowToResult) [] with
    | Except.error e => Except.error e
    | Except.ok d => Except.ok (sortChats d)

example :
    extract_group_chats "g" "/Users/me" true
        [⟨"the group", some "alice", false, none, some "  hi there  ", 42⟩]
      = Except.ok [("the group", [⟨some "Alice", "hi there", 42⟩])] := by rfl

example :
    extract_group_chats "g" "/Users/me" true
        [⟨"the group", none, true, none, some "Loved a message", 42⟩]
      = Except.ok [] := by rfl

/-- C8: for every chat-name pattern, when the raw store path does not
exist, `extract_group_chats` fails with the source-not-found error naming
`CHATDB_PATH`, and the result is the same whatever the store holds: the
store is never opened and no query or processing happens. -/
theorem extract_group_chats_source_not_found (cn home : String) (rows rows2 : List Row) :
    extract_group_chats cn home false rows
        = Except.error (ExtractErr.sourceNotFound (chatdb_path home))
      ∧ extract_group_chats cn home false rows
        = extract_group_chats cn home false rows2 :=
  ⟨rfl, rfl⟩

/-- A string with an empty character list is the empty string. -/
theorem string_eq_empty_of_data {s : String} (h : s.data = []) : s = "" := by
  cases s with
  | mk l =>
    simp only [String.data] at h
    rw [h]

/-- The accumulation loop fails with `IndexError` whenever some
result-set row carries an empty (but present) speaker string: speaker
normalization indexes `speaker[0]` and nothing else in the loop raises. -/
theorem processRows_indexError :
    ∀ (rs : List ResultRow) (d : List (String × List Message)),
      (∃ row ∈ rs, row.speaker = some "") →
      processRows rs d = Except.error ExtractErr.indexError := by
  intro rs
  induction rs with
  | nil =>
    intro d h
    rcases h with ⟨row, hmem, _⟩
    cases hmem
  | cons row rest ih =>
    intro d h
    by_cases hsp : row.speaker = some ""
    · have hstep : stepRow d row = Except.error ExtractErr.indexError := by
        rw [stepRow, hsp]
        rfl
      rw [processRows, hstep]
    · obtain ⟨row2, hmem, hsp2⟩ := h
      have hrest : ∃ r ∈ rest, r.speaker = some "" := by
        rcases List.mem_cons.mp hmem with rfl | hm
        · exact absurd hsp2 hsp
        · exact ⟨row2, hm, hsp2⟩
      obtain ⟨d2, hd2⟩ : ∃ d2, stepRow d row = Except.ok d2 := by
        rw [stepRow]
        cases hspk : row.speaker with
        | none =>
          simp only [normalizeSpeaker]
          split
          · exact ⟨d, rfl⟩
          · exact ⟨_, rfl⟩
        | some s =>
          cases hd : s.data with
          | nil =>
            exact absurd (by rw [hspk, string_eq_empty_of_data hd]) hsp
          | cons c cs =>
            simp only [normalizeSpeaker, hd]
            split
            · exact ⟨d, rfl⟩
            · exact ⟨_, rfl⟩
      rw [processRows, hd2]
      exact ih d2 hrest

/-- C9: `extract_group_chats` presupposes resolved speaker strings are
non-empty.  If any candidate row that survives the query filter resolves
to the empty speaker string, the extraction raises `IndexError` from
`speaker[0]` instead of returning a mapping. -/
theorem extract_group_chats_empty_speaker (cn home : String) (rows : List Row) (r : Row)
    (hr : r ∈ rows) (hkeep : sqlKeep r = true) (hsp : rowSpeaker r = some "") :
    extract_group_chats cn home true rows = Except.error ExtractErr.indexError := by
  have hmem : rowToResult r ∈ (rows.filter sqlKeep).map rowToResult :=
    List.mem_map_of_mem rowToResult (List.mem_filter.mpr ⟨hr, hkeep⟩)
  have hbad : ∃ row ∈ (rows.filter sqlKeep).map rowToResult, row.speaker = some "" :=
    ⟨rowToResult r, hmem, by simp [rowToResult, hsp]⟩
  rw [extract_group_chats, processRows_indexError _ [] hbad]
  rfl

/-- A kept candidate row whose handle has an empty contact name. -/
def c9row : Row := ⟨"gc", some "", false, none, some "hello over there", 7⟩

theorem extract_group_chats_empty_speaker_witness :
    c9row ∈ [c9row] ∧ sqlKeep c9row = true ∧ rowSpeaker c9row = some ""
      ∧ extract_group_chats "g" "/Users/me" true [c9row]
          = Except.error ExtractErr.indexError :=
  ⟨by decide, by decide, by decide,
    extract_group_chats_empty_speaker "g" "/Users/me" [c9row] c9row
      (by decide) (by decide) (by decide)⟩

/-- A candidate row whose text is whitespace-only: it passes every filter
of the query (non-empty chat name, non-NULL text, no tapback marker). -/
def c2row : Row := ⟨"the group", some "alice", false, none, some "   ", 42⟩

/-- The message `extract_group_chats` builds from `c2row`: its text is
stripped to the empty string and retained. -/
def c2outMsg : Message := ⟨some "Alice", "", 42⟩

/-- C2 counterexample: a whitespace-only row is retained and its text is
the empty string after stripping, so the mapping produced by
`extract_group_chats` can contain messages with empty stripped text. -/
theorem extract_group_chats_keeps_empty_text :
    extract_group_chats "g" "/Users/me" true [c2row]
        = Except.ok [("the group", [c2outMsg])]
      ∧ c2outMsg.text = "" :=
  ⟨rfl, rfl⟩

/-- `dictAppend` preserves a predicate on stored texts. -/
theorem dictAppend_text_pred (Q : String → Prop) :
    ∀ (d : List (String × List Message)) (k : String) (m : Message),
      (∀ kv ∈ d, ∀ x ∈ kv.2, Q x.text) → Q m.text →
      ∀ kv ∈ dictAppend d k m, ∀ x ∈ kv.2, Q x.text := by
  intro d
  induction d with
  | nil =>
    intro k m _ hm kv hkv x hx
    rw [dictAppend, List.mem_singleton] at hkv
    subst hkv
    rw [List.mem_singleton] at hx
    subst hx
    exact hm
  | cons kv0 rest ih =>
    intro k m hd hm kv hkv x hx
    obtain ⟨k0, ms⟩ := kv0
    rw [dictAppend] at hkv
    by_cases hk : k0 = k
    · rw [if_pos hk] at hkv
      rcases List.mem_cons.mp hkv with rfl | hkv2
      · rcases List.mem_append.mp hx with hx2 | hx2
        · exact hd (k0, ms) (by simp) x hx2
        · rw [List.mem_singleton] at hx2
          subst hx2
          exact hm
      · exact hd kv (List.mem_cons_of_mem _ hkv2) x hx
    · rw [if_neg hk] at hkv
      rcases List.mem_cons.mp hkv with rfl | hkv2
      · exact hd (k0, ms) (by simp) x hx
      · exact ih k m (fun kv2 h2 => hd kv2 (List.mem_cons_of_mem _ h2)) hm kv hkv2 x hx

/-- The accumulation loop preserves a predicate on stored texts: every
message it appends carries the stripped text of its result-set row. -/
theorem processRows_text_pred (Q : String → Prop) :
    ∀ (rs : List ResultRow) (d d2 : List (String × List Message)),
      processRows rs d = Except.ok d2 →
      (∀ kv ∈ d, ∀ x ∈ kv.2, Q x.text) →
      (∀ row ∈ rs, Q (pyStrip row.text)) →
      ∀ kv ∈ d2, ∀ x ∈ kv.2, Q x.text := by
  intro rs
  induction rs with
  | nil =>
    intro d d2 hok hd _
    rw [processRows] at hok
    cases hok
    exact hd
  | cons row rest ih =>
    intro d d2 hok hd hrows
    rw [processRows] at hok
    cases hstep : stepRow d row with
    | error e => rw [hstep] at hok; cases hok
    | ok dmid =>
      rw [hstep] at hok
      refine ih dmid d2 hok ?_ (fun row2 h2 => hrows row2 (List.mem_cons_of_mem _ h2))
      rw [stepRow] at hstep
      cases hns : normalizeSpeaker row.speaker with
      | error e => rw [hns] at hstep; cases hstep
      | ok sp =>
        rw [hns] at hstep
        dsimp only at hstep
        by_cases ho : ((pyStrip row.text).data.any fun c => c.toNat == 65532) = true
        · rw [if_pos ho] at hstep
          cases hstep
          exact hd
        · rw [if_neg ho] at hstep
          cases hstep
          exact dictAppend_text_pred Q d row.chat_name _ hd
            (hrows row (List.mem_cons_self row rest))

/-- Membership in a stable insertion comes from the inserted element or
the old run. -/
theorem mem_insertByTime {x m : Message} :
    ∀ {l : List Message}, x ∈ insertByTime m l → x = m ∨ x ∈ l := by
  intro l
  induction l with
  | nil =>
    intro h
    rw [insertByTime, List.mem_singleton] at h
    exact Or.inl h
  | cons y ys ih =>
    intro h
    rw [insertByTime] at h
    split at h
    · rcases List.mem_cons.mp h with rfl | h2
      · exact Or.inr (by simp)
      · rcases ih h2 with h3 | h3
        · exact Or.inl h3
        · exact Or.inr (List.mem_cons_of_mem _ h3)
    · rcases List.mem_cons.mp h with rfl | h2
      · exact Or.inl rfl
      · exact Or.inr h2

/-- Sorting a chat by timestamp introduces no new message. -/
theorem mem_sortByTime {x : Message} :
    ∀ (ms acc : List Message),
      x ∈ ms.foldl (fun a m => insertByTime m a) acc → x ∈ acc ∨ x ∈ ms := by
  intro ms
  induction ms with
  | nil =>
    intro acc h
    exact Or.inl h
  | cons m ms ih =>
    intro acc h
    rw [List.foldl_cons] at h
    rcases ih (insertByTime m acc) h with h2 | h2
    · rcases mem_insertByTime h2 with rfl | h3
      · exact Or.inr (by simp)
      · exact Or.inl h3
    · exact Or.inr (List.mem_cons_of_mem _ h2)

/-- C2 (amended): every message retained by `extract_group_chats` carries
a stripped text, but the source never discards whitespace-only texts, so
the claim holds only on stores without whitespace-only rows: when no kept
row's text strips to the empty string, no retained message's text is
empty.  (The counterexample shows a whitespace-only row yields a retained
message whose text is the empty string.) -/
theorem extract_group_chats_nonempty_texts (cn home : String) (rows : List Row)
    (d : List (String × List Message))
    (hok : extract_group_chats cn home true rows = Except.ok d)
    (hrows : ∀ r ∈ rows, ∀ t, r.text = some t → pyStrip t ≠ "") :
    ∀ kv ∈ d, ∀ m ∈ kv.2, m.text ≠ "" := by
  rw [extract_group_chats] at hok
  rw [if_neg (by decide)] at hok
  cases hpr : processRows ((rows.filter sqlKeep).map rowToResult) [] with
  | error e => rw [hpr] at hok; cases hok
  | ok d0 =>
    rw [hpr] at hok
    cases hok
    have hQ : ∀ kv ∈ d0, ∀ x ∈ kv.2, x.text ≠ "" := by
      refine processRows_text_pred (fun t => t ≠ "") _ [] d0 hpr ?_ ?_
      · intro kv hkv; cases hkv
      · intro row hrow
        rcases List.mem_map.mp hrow with ⟨r, hrf, rfl⟩
        rcases List.mem_filter.mp hrf with ⟨hrmem, hrkeep⟩
        cases ht : r.text with
        | none => rw [sqlKeep, ht] at hrkeep; cases hrkeep
        | some t =>
          have hne := hrows r hrmem t ht
          simpa [rowToResult, ht] using hne
    intro kv hkv m hm
    rcases List.mem_map.mp hkv with ⟨kv0, hkv0, rfl⟩
    rcases mem_sortByTime kv0.2 [] hm with h2 | h2
    · cases h2
    · exact hQ kv0 hkv0 m h2

/-- A kept row whose text strips to something non-empty. -/
def c2wrow : Row := ⟨"g2", some "bob", false, none, some "  good morning  ", 1⟩

/-- The mapping extracted from `[c2wrow]`. -/
def c2wd : List (String × List Message) := [("g2", [⟨some "Bob", "good morning", 1⟩])]

theorem extract_group_chats_nonempty_texts_witness :
    extract_group_chats "g" "/Users/me2" true [c2wrow] = Except.ok c2wd
      ∧ (∀ kv ∈ c2wd, ∀ m ∈ kv.2, m.text ≠ "") :=
  ⟨rfl,
    extract_group_chats_nonempty_texts "g" "/Users/me2" [c2wrow] c2wd rfl
      (by
        intro r hr t ht
        rw [List.mem_singleton] at hr
        subst hr
        have ht2 : some "  good morning  " = some t := ht
        cases ht2
        decide)⟩

/-- dataset.py lines 85-90 (first-pass filtering in `__main__`): a
conversation is skipped exactly when it has a single message whose text
starts with "http" or has at most 10 characters. -/
def dropLowInfo (c : List Message) : Bool :=
  match c with
  | [m] => strStarts m.text "http" || decide (pyLen m.text ≤ 10)
  | _ => false

/-- dataset.py `filtered_conversations`: keep, in order, the
conversations the low-information heuristic does not skip. -/
def filter_conversations (convs : List (List Message)) : List (List Message) :=
  convs.filter (fun c => !dropLowInfo c)

/-- A single message of exactly 10 characters, not starting with "http". -/
def c3msg : Message := ⟨some "A", "0123456789", 100⟩

/-- The retained example message of C3 ("Did you see that movie?"). -/
def c3movie : Message := ⟨some "B", "Did you see that movie?", 200⟩

/-- C3: the code drops a single-message segment when its text starts with
"http" or has length at most 10 — `len(c[0].text) <= 10` — although the
comment directly above it says "fewer than 10 chars" and the claim says
"shorter than 10 characters".  At the boundary the code and the claim
disagree: the 10-character non-URL message is dropped by the code, while
the claim (and the code's own comment) say it is retained.  The
"Did you see that movie?" single-message segment is retained, and the
general shape of the filter is as claimed away from the boundary. -/
theorem filter_conversations_boundary :
    pyLen c3msg.text = 10
      ∧ strStarts c3msg.text "http" = false
      ∧ filter_conversations [[c3msg]] = []
      ∧ filter_conversations [[c3movie]] = [[c3movie]]
      ∧ filter_conversations [[⟨some "A", "http://example.com", 1⟩]] = []
      ∧ filter_conversations [[⟨some "A", "hi", 2⟩]] = [] := by
  refine ⟨by decide, by decide, by decide, by decide, by decide, by decide⟩

/-- dataset.py `construct_example` output record: instruction, input,
output strings for llama/alpaca fine-tuning. -/
structure TrainingExample where
  instruction : String
  input : String
  output : String
  deriving DecidableEq

/-- One transcript line of the context:
`f"{msg.speaker}: {msg.text}"` when the speaker is resolved, else
`f"Unknown speaker: {msg.text}"`. -/
def renderLine (msg : Message) : String :=
  match msg.speaker with
  | some s => s ++ ": " ++ msg.text
  | none => "Unknown speaker: " ++ msg.text

/-- dataset.py `construct_example(partial_conversation, instruction)`.
`pc[-1]` on an empty list raises, modelled as `none`.  The context is the
rendering of `pc[:-1]`; when it exceeds 256 * 4 characters it is
re-rendered once from `pc[len(pc) // 2 : -1]`.  The input is the header
line, the context, a newline and the target-speaker prompt
`f"{last_msg.speaker}: "`; the output is the last message's text. -/
def construct_example (pc : List Message) (instruction : String) :
    Option TrainingExample :=
  match pc.getLast? with
  | none => none
  | some last_msg =>
    some
      ⟨instruction,
        "Conversation:\n"
          ++ (if pyLen (joinWith "\n" (pc.dropLast.map renderLine)) > 256 * 4 then
                joinWith "\n" (((pc.drop (pc.length / 2)).dropLast).map renderLine)
              else joinWith "\n" (pc.dropLast.map renderLine))
          ++ "\n" ++ pyStrOpt last_msg.speaker ++ ": ",
        last_msg.text⟩

example :
    construct_example [⟨some "A", "hi there all", 1⟩, ⟨some "B", "hello", 2⟩] "inst"
      = some ⟨"inst", "Conversation:\nA: hi there all\nB: ", "hello"⟩ := by decide

/-- C6: for every non-empty partial conversation whose rendered full
context (all messages but the last, one line each, newline-joined)
exceeds the 1024-character budget (256 tokens at 4 characters/token),
`construct_example` renders as context exactly the messages from index
`len(pc) // 2` up to but excluding the last, once each and in order; the
halving happens exactly once — the equation holds even when the halved
context still exceeds the budget. -/
theorem construct_example_halves_context (pc : List Message) (instr : String)
    (last_msg : Message) (hlast : pc.getLast? = some last_msg)
    (hbig : pyLen (joinWith "\n" (pc.dropLast.map renderLine)) > 256 * 4) :
    construct_example pc instr
      = some
          ⟨instr,
            "Conversation:\n"
              ++ joinWith "\n" (((pc.drop (pc.length / 2)).dropLast).map renderLine)
              ++ "\n" ++ pyStrOpt last_msg.speaker ++ ": ",
            last_msg.text⟩ := by
  rw [construct_example, hlast]
  dsimp only
  rw [if_pos hbig]

/-- A context message long enough to blow the 1024-character budget. -/
def c6m1 : Message := ⟨some "A", String.mk (List.replicate 1030 'a'), 10⟩

/-- The target message of the C6 witness. -/
def c6m2 : Message := ⟨some "B", "sure thing", 20⟩

/-- The C6 witness partial conversation. -/
def c6pc : List Message := [c6m1, c6m2]

theorem construct_example_halves_context_witness :
    pyLen (joinWith "\n" (c6pc.dropLast.map renderLine)) > 256 * 4
      ∧ construct_example c6pc "inst"
          = some
              ⟨"inst",
                "Conversation:\n"
                  ++ joinWith "\n" (((c6pc.drop (c6pc.length / 2)).dropLast).map renderLine)
                  ++ "\n" ++ pyStrOpt c6m2.speaker ++ ": ",
                c6m2.text⟩ :=
  ⟨by decide, construct_example_halves_context c6pc "inst" c6m2 (by decide) (by decide)⟩

/-- C7: for every non-empty partial conversation, the `output` field of
the example built by `construct_example` is the final message's text,
verbatim: no truncation and no speaker label. -/
theorem construct_example_output_verbatim (pc : List Message) (instr : String)
    (last_msg : Message) (hlast : pc.getLast? = some last_msg) :
    ∃ ex, construct_example pc instr = some ex ∧ ex.output = last_msg.text := by
  rw [construct_example, hlast]
  exact ⟨_, rfl, rfl⟩

/-- The target message of the C7 witness. -/
def c7last : Message := ⟨some "B", "all good over here", 2⟩

/-- The C7 witness partial conversation. -/
def c7pc : List Message := [⟨some "A", "how are you doing", 1⟩, c7last]

theorem construct_example_output_verbatim_witness :
    c7pc.getLast? = some c7last
      ∧ ∃ ex, construct_example c7pc "inst" = some ex ∧ ex.output = c7last.text :=
  ⟨by decide, construct_example_output_verbatim c7pc "inst" c7last (by decide)⟩

/-- C10: `construct_example` applies the "Unknown speaker" placeholder
only while rendering context lines.  When it is called with a partial
conversation whose final message has an unresolved (`None`) speaker —
violating the stated precondition — the returned input ends with the
literal line `"None: "` (Python's f-string rendering of `None`), not with
the placeholder label. -/
theorem construct_example_unresolved_target (pc : List Message) (instr : String)
    (last_msg : Message) (hlast : pc.getLast? = some last_msg)
    (hsp : last_msg.speaker = none) :
    ∃ ex s, construct_example pc instr = some ex ∧ ex.input = s ++ "None: " := by
  rw [construct_example, hlast]
  dsimp only
  rw [hsp]
  generalize (if pyLen (joinWith "\n" (pc.dropLast.map renderLine)) > 256 * 4 then
      joinWith "\n" (((pc.drop (pc.length / 2)).dropLast).map renderLine)
    else joinWith "\n" (pc.dropLast.map renderLine)) = ctx
  refine ⟨_, "Conversation:\n" ++ ctx ++ "\n", rfl, ?_⟩
  rw [String.append_assoc]
  rfl

/-- The target message of the C10 witness: unresolved speaker. -/
def c10last : Message := ⟨none, "mystery reply", 6⟩

/-- The C10 witness partial conversation. -/
def c10pc : List Message := [⟨some "A", "anyone know who this is", 5⟩, c10last]

theorem construct_example_unresolved_target_witness :
    c10pc.getLast? = some c10last ∧ c10last.speaker = none
      ∧ ∃ ex s, construct_example c10pc "inst" = some ex ∧ ex.input = s ++ "None: " :=
  ⟨by decide, rfl,
    construct_example_unresolved_target c10pc "inst" c10last (by decide) rfl⟩
